import Mathlib

/-!
Shallow embedding of the conversation session engine (src/deepseek.py):
the streaming SSE decoder (`_stream_request`), the session state operations
(`_validate_message_sequence`, `_clean_auto_messages`, `toggle_auto_mode`,
`load_conversation`) and the auto-response control loop (`chat`,
`_generate_auto_response`, `_process_chat_round`), together with proofs of
the specification's claims about them.

Python strings are modelled by `String`, machine lists by `List`, and the
message dictionaries by a structure with the three keys the program stores.
The network is an oracle: a list of per-request outcomes (`NetResult`)
consumed in order, where an exception during a streaming request is
`NetResult.raise` and a completed request carrying the joined content text
is `NetResult.ok`.  The JSON decoding done by `json.loads` is modelled by
an executable recursive-descent parser over the same grammar (numbers keep
their integer part; duplicate object keys keep the last, as `json.loads`
does).
-/

namespace DSeek

/-! ### Python string helpers (ASCII fragment of `str.strip`, `startswith`, slices) -/

def is_space (c : Char) : Bool :=
  c = ' ' || c = '\t' || c = '\n' || c = '\r' || c = '\x0b' || c = '\x0c'

/-- Python `str.strip()` (whitespace from both ends). -/
def strip (s : String) : String :=
  String.mk (((s.data.dropWhile is_space).reverse.dropWhile is_space).reverse)

/-- Python `str.startswith(pre)`. -/
def starts_with (s pre : String) : Bool :=
  List.isPrefixOf pre.data s.data

/-- Python `str.endswith(suf)`. -/
def ends_with (s suf : String) : Bool :=
  List.isPrefixOf suf.data.reverse s.data.reverse

/-- Python `s[n:]` on strings. -/
def string_drop (s : String) (n : Nat) : String :=
  String.mk (s.data.drop n)

/-! ### JSON values and a model of `json.loads` -/

inductive JValue where
  | jnull : JValue
  | jbool : Bool → JValue
  | jnum : Int → JValue
  | jstr : String → JValue
  | jarr : List JValue → JValue
  | jobj : List (String × JValue) → JValue

def skip_ws : List Char → List Char
  | [] => []
  | c :: cs => if is_space c then skip_ws cs else c :: cs

def hex_val (c : Char) : Option Nat :=
  if c.isDigit then some (c.toNat - 48)
  else if 'a' ≤ c && c ≤ 'f' then some (c.toNat - 87)
  else if 'A' ≤ c && c ≤ 'F' then some (c.toNat - 55)
  else none

def parse_string_body : List Char → List Char → Option (String × List Char)
  | [], _ => none
  | '"' :: rest, acc => some (String.mk acc.reverse, rest)
  | '\\' :: rest, acc =>
    match rest, acc with
    | [], _ => none
    | e :: cs, acc =>
      if e = '"' then parse_string_body cs ('"' :: acc)
      else if e = '\\' then parse_string_body cs ('\\' :: acc)
      else if e = '/' then parse_string_body cs ('/' :: acc)
      else if e = 'n' then parse_string_body cs ('\n' :: acc)
      else if e = 't' then parse_string_body cs ('\t' :: acc)
      else if e = 'r' then parse_string_body cs ('\r' :: acc)
      else if e = 'b' then parse_string_body cs (Char.ofNat 8 :: acc)
      else if e = 'f' then parse_string_body cs (Char.ofNat 12 :: acc)
      else if e = 'u' then
        match cs, acc with
        | h1 :: h2 :: h3 :: h4 :: cs', acc =>
          match hex_val h1, hex_val h2, hex_val h3, hex_val h4 with
          | some a, some b, some c, some d =>
            parse_string_body cs' (Char.ofNat (((a * 16 + b) * 16 + c) * 16 + d) :: acc)
          | _, _, _, _ => none
        | _, _ => none
      else none
  | c :: rest, acc => parse_string_body rest (c :: acc)

def span_digits : List Char → List Char × List Char
  | [] => ([], [])
  | c :: cs =>
    if c.isDigit then
      match span_digits cs with
      | (ds, rest) => (c :: ds, rest)
    else ([], c :: cs)

def digits_to_nat (ds : List Char) : Nat :=
  ds.foldl (fun acc c => acc * 10 + (c.toNat - 48)) 0

def exp_tail (r : List Char) : Option (List Char) :=
  let r' := match r with
    | '+' :: t => t
    | '-' :: t => t
    | _ => r
  match span_digits r' with
  | ([], _) => none
  | (_, rest) => some rest

def parse_frac : List Char → Option (List Char)
  | '.' :: r =>
    match span_digits r with
    | ([], _) => none
    | (_, rest) => some rest
  | cs => some cs

def parse_exp : List Char → Option (List Char)
  | 'e' :: r => exp_tail r
  | 'E' :: r => exp_tail r
  | cs => some cs

/-- JSON number: the modelled value keeps the integer part (claims never
inspect numeric values); the fraction and exponent are consumed. -/
def parse_number (cs : List Char) : Option (JValue × List Char) :=
  let signed : Bool × List Char :=
    match cs with
    | '-' :: rest => (true, rest)
    | _ => (false, cs)
  match span_digits signed.2 with
  | ([], _) => none
  | (ds, rest) =>
    let n : Int := Int.ofNat (digits_to_nat ds)
    let n : Int := if signed.1 then -n else n
    match parse_frac rest with
    | none => none
    | some rest₂ =>
      match parse_exp rest₂ with
      | none => none
      | some rest₃ => some (JValue.jnum n, rest₃)

mutual

def parse_value : Nat → List Char → Option (JValue × List Char)
  | 0, _ => none
  | fuel + 1, cs =>
    match skip_ws cs with
    | [] => none
    | c :: rest =>
      if c = '{' then
        match skip_ws rest with
        | '}' :: rest₂ => some (JValue.jobj [], rest₂)
        | rest₂ => parse_members fuel rest₂ []
      else if c = '[' then
        match skip_ws rest with
        | ']' :: rest₂ => some (JValue.jarr [], rest₂)
        | rest₂ => parse_elems fuel rest₂ []
      else if c = '"' then
        match parse_string_body rest [] with
        | some (s, rest₂) => some (JValue.jstr s, rest₂)
        | none => none
      else if c = 't' then
        match rest with
        | 'r' :: 'u' :: 'e' :: rest₂ => some (JValue.jbool true, rest₂)
        | _ => none
      else if c = 'f' then
        match rest with
        | 'a' :: 'l' :: 's' :: 'e' :: rest₂ => some (JValue.jbool false, rest₂)
        | _ => none
      else if c = 'n' then
        match rest with
        | 'u' :: 'l' :: 'l' :: rest₂ => some (JValue.jnull, rest₂)
        | _ => none
      else parse_number (c :: rest)

def parse_members : Nat → List Char → List (String × JValue) → Option (JValue × List Char)
  | 0, _, _ => none
  | fuel + 1, cs, acc =>
    match skip_ws cs with
    | '"' :: rest =>
      match parse_string_body rest [] with
      | none => none
      | some (key, rest₂) =>
        match skip_ws rest₂ with
        | ':' :: rest₃ =>
          match parse_value fuel rest₃ with
          | none => none
          | some (v, rest₄) =>
            match skip_ws rest₄ with
            | ',' :: rest₅ => parse_members fuel rest₅ ((key, v) :: acc)
            | '}' :: rest₅ => some (JValue.jobj ((key, v) :: acc).reverse, rest₅)
            | _ => none
        | _ => none
    | _ => none

def parse_elems : Nat → List Char → List JValue → Option (JValue × List Char)
  | 0, _, _ => none
  | fuel + 1, cs, acc =>
    match parse_value fuel cs with
    | none => none
    | some (v, rest) =>
      match skip_ws rest with
      | ',' :: rest₂ => parse_elems fuel rest₂ (v :: acc)
      | ']' :: rest₂ => some (JValue.jarr (v :: acc).reverse, rest₂)
      | _ => none

end

/-- Model of `json.loads`: parse the whole string, allowing surrounding
whitespace, failing if anything else is left over. -/
def json_loads (s : String) : Option JValue :=
  match parse_value (2 * s.length + 2) s.data with
  | some (v, rest) => if skip_ws rest = [] then some v else none
  | none => none

/-- Python truthiness of a decoded JSON value. -/
def truthy : JValue → Bool
  | JValue.jnull => false
  | JValue.jbool b => b
  | JValue.jnum n => n != 0
  | JValue.jstr s => s != ""
  | JValue.jarr l => !l.isEmpty
  | JValue.jobj l => !l.isEmpty

/-- Python `dict.get(k)` on a decoded JSON object (`json.loads` keeps the
last of duplicate keys, hence the reverse); `None` on anything that is not
an object. -/
def jget : JValue → String → Option JValue
  | JValue.jobj fs, k => List.lookup k fs.reverse
  | _, _ => none

/-! ### The streaming protocol decoder (`_stream_request`, src/deepseek.py 152-202) -/

/-- Second half of the delta inspection: `elif delta.get("content"): yield
("content", delta["content"])`. -/
def extract_content (delta : JValue) : Except Unit (Option (String × JValue)) :=
  match jget delta "content" with
  | some c => if truthy c then Except.ok (some ("content", c)) else Except.ok none
  | none => Except.ok none

/-- Inspection of one parsed chunk (src/deepseek.py 184-192).  `Except.error`
models the uncaught `TypeError`/`AttributeError` the source raises when a
truthy `choices` is not a list of objects or a truthy `delta` is not an
object; such an exception propagates out of the generator and aborts the
stream (it is not a `json.JSONDecodeError`, so the local handler does not
catch it). -/
def extract_event (chunk : JValue) : Except Unit (Option (String × JValue)) :=
  match jget chunk "choices" with
  | none => Except.ok none
  | some cs =>
    if truthy cs then
      match cs with
      | JValue.jarr (h :: _) =>
        match h with
        | JValue.jobj _ =>
          let delta := (jget h "delta").getD (JValue.jobj [])
          if truthy delta then
            match delta with
            | JValue.jobj _ =>
              match jget delta "reasoning_content" with
              | some rc =>
                if truthy rc then Except.ok (some ("reasoning", rc))
                else extract_content delta
              | none => extract_content delta
            | _ => Except.error ()
          else Except.ok none
        | _ => Except.error ()
      | _ => Except.error ()
    else Except.ok none

/-- The line-scanning loop of `_stream_request` over the already decoded
transport lines.  Returns the yielded events in order, and `some ()` when an
uncaught exception aborted the stream mid-scan (`none` on normal
termination, by `[DONE]` or by the transport closing). -/
def stream_lines : String → List String → List (String × JValue) × Option Unit
  | _, [] => ([], none)
  | buffer, line :: rest =>
    let raw_line := strip line
    if starts_with raw_line "data:" then
      let data_content := strip (string_drop raw_line 5)
      if data_content = "[DONE]" then ([], none)
      else if data_content = "" then stream_lines buffer rest
      else
        let buffer' := buffer ++ data_content
        if starts_with buffer' "\x7b" && ends_with buffer' "\x7d" then
          match json_loads buffer' with
          | none => stream_lines "" rest
          | some chunk =>
            match extract_event chunk with
            | Except.error _ => ([], some ())
            | Except.ok none => stream_lines "" rest
            | Except.ok (some ev) =>
              match stream_lines "" rest with
              | (evs, e) => (ev :: evs, e)
        else stream_lines buffer' rest
    else stream_lines buffer rest

/-! ### Session state (src/deepseek.py 30-150) -/

/-- One message dictionary as the program stores it: the keys `role`,
`content` and `is_auto_generated` (src/deepseek.py 289-291, 325-331,
438-444). -/
structure Message where
  role : String
  content : String
  is_auto_generated : Bool
deriving DecidableEq

/-- The session fields the claims are about (src/deepseek.py 40-45). -/
structure Session where
  messages : List Message
  auto_mode : Bool
  auto_iterations : Nat
  max_auto_iterations : Nat
  max_auto_retries : Nat
  show_reasoning : Bool
deriving DecidableEq

/-- The state `__init__` builds (src/deepseek.py 40-45). -/
def init_session : Session :=
  { messages := []
    auto_mode := true
    auto_iterations := 0
    max_auto_iterations := 3
    max_auto_retries := 2
    show_reasoning := false }

/-- The fixed auto-instruction text (src/deepseek.py 49-55). -/
def auto_instruction : String :=
  "Generate the next USER message based on the conversation history. " ++
  "Keep it natural and match the user's message style. Be as LENGTHY as " ++
  "you desire. Being CONCISE is fine too! Respond ONLY with " ++
  "the user's message text WITHOUT any additional commentary. You can " ++
  "add markdown formatting if you want, but it's not required."

/-- `_validate_message_sequence` (src/deepseek.py 115-120): `true` when the
check passes, `false` when it raises `ValueError`. -/
def validate_message_sequence (msgs : List Message) (new_role : String) : Bool :=
  match msgs.getLast? with
  | none => true
  | some last => last.role != new_role

/-- `_clean_auto_messages` (src/deepseek.py 122-126). -/
def clean_auto_messages (msgs : List Message) : List Message :=
  msgs.filter (fun m => !m.is_auto_generated)

/-- `toggle_auto_mode` (src/deepseek.py 128-133). -/
def toggle_auto_mode (s : Session) : Session :=
  let s₁ := { s with auto_mode := !s.auto_mode, auto_iterations := 0 }
  if s₁.auto_mode then { s₁ with messages := clean_auto_messages s₁.messages } else s₁

/-- The snapshot `save_conversation` writes and `load_conversation` reads
(src/deepseek.py 66-71, 92-95). -/
structure SavedState where
  messages : List Message
  auto_mode : Bool
  auto_iterations : Nat
  show_reasoning : Bool

/-- `load_conversation` (src/deepseek.py 80-95), with the filesystem as an
oracle from filenames to saved snapshots (`none` when the path does not
exist, in which case the function reports and returns with no state
change). -/
def load_conversation (s : Session) (fs : String → Option SavedState)
    (filename : String) : Session :=
  match fs filename with
  | none => s
  | some st =>
    { s with
      messages := st.messages
      auto_mode := st.auto_mode
      auto_iterations := st.auto_iterations
      show_reasoning := st.show_reasoning }

/-! ### Requests and the network oracle -/

/-- The outcome of one streaming completion request, as seen by the caller
after the event stream is consumed: `raise` for an exception (transport
failure, mid-stream crash), `ok t` for a completed stream whose `content`
fragments join to `t`. -/
inductive NetResult where
  | raise : NetResult
  | ok : String → NetResult
deriving DecidableEq

/-- The JSON body of a completion request (src/deepseek.py 372-376,
222-226): the message dictionaries are embedded as stored, every key
included. -/
structure Payload where
  model : String
  messages : List Message
  stream : Bool
deriving DecidableEq

/-- The wire projection the spec says is sent: role and content only. -/
def wire (m : Message) : String × String :=
  (m.role, m.content)

/-- The instruction turn `_generate_auto_response` appends to its request
history (src/deepseek.py 214-220). -/
def instruction_turn : Message :=
  { role := "user", content := auto_instruction, is_auto_generated := true }

/-- The request history `_generate_auto_response` builds (src/deepseek.py
208-220): a copy of the session history with any turn whose content equals
the fixed instruction text filtered out, plus a fresh instruction turn. -/
def auto_request_messages (msgs : List Message) : List Message :=
  (msgs.filter (fun m => m.content != auto_instruction)) ++ [instruction_turn]

/-- The payload of `_process_chat_round` (src/deepseek.py 372-376). -/
def round_payload (msgs : List Message) : Payload :=
  { model := "deepseek-reasoner", messages := msgs, stream := true }

/-- The payload of `_generate_auto_response` (src/deepseek.py 222-226). -/
def auto_payload (msgs : List Message) : Payload :=
  { model := "deepseek-reasoner", messages := auto_request_messages msgs, stream := true }

/-! ### The chat control loop (src/deepseek.py 204-450) -/

/-- Result of `_process_chat_round`: the session, the returned
`Optional[str]` (`none` for a caught exception), the unconsumed network
oracle, and the ghost list of message-list snapshots taken right after each
append. -/
structure RoundOut where
  session : Session
  response : Option String
  env : List NetResult
  snaps : List (List Message)
deriving DecidableEq

/-- `_process_chat_round` (src/deepseek.py 368-450).  It validates the
sequence for an assistant turn, sends `round_payload self.messages`,
consumes the streamed events, and appends the assistant turn only when the
joined response text is non-empty; any exception (validation or streaming)
is caught and turns the result into `None`.  An empty oracle is a transport
failure. -/
def process_chat_round (s : Session) (env : List NetResult) : RoundOut :=
  if validate_message_sequence s.messages "assistant" then
    let _request := round_payload s.messages
    match env with
    | [] => ⟨s, none, [], []⟩
    | NetResult.raise :: rest => ⟨s, none, rest, []⟩
    | NetResult.ok t :: rest =>
      if t = "" then ⟨s, some t, rest, []⟩
      else
        let s' := { s with messages := s.messages ++ [⟨"assistant", t, false⟩] }
        ⟨s', some t, rest, [s'.messages]⟩
  else ⟨s, none, env, []⟩

/-- `_generate_auto_response` (src/deepseek.py 204-283).  It validates the
sequence for a user turn, sends `auto_payload self.messages`, and returns
the joined response text stripped; any exception inside it (validation or
streaming) is caught by its own handler and turns the result into `None`.
It never mutates the session's message list: the instruction turn is
appended only to the request copy. -/
def generate_auto_response (s : Session) (env : List NetResult) :
    Session × Option String × List NetResult :=
  if validate_message_sequence s.messages "user" then
    let _request := auto_payload s.messages
    match env with
    | [] => (s, none, [])
    | NetResult.raise :: rest => (s, none, rest)
    | NetResult.ok t :: rest => (s, some (strip t), rest)
  else (s, none, env)

/-- The appends done by the auto loop when a generated auto response is
accepted (src/deepseek.py 318-331): increment `auto_iterations` and append
the synthetic user turn. -/
def append_auto_turn (s : Session) (t : String) : Session :=
  { s with
    auto_iterations := s.auto_iterations + 1
    messages := s.messages ++ [⟨"user", t, true⟩] }

/-- Result of `chat` and of its auto loop: final session, unconsumed
oracle, ghost snapshots after each append, and the ghost count of assistant
rounds run by the auto loop. -/
structure LoopOut where
  session : Session
  env : List NetResult
  snaps : List (List Message)
  rounds : Nat
deriving DecidableEq

/-- The `while` loop of `chat` (src/deepseek.py 301-361).  Exceptions
raised while generating the auto response or running the assistant round
are caught inside those helpers, which return `None`; the loop then prints
a warning and breaks, so the `except` branch holding `retry_count` and
`max_auto_retries` (src/deepseek.py 345-361) is unreachable from those
failures and the loop carries no reachable retry state.  The fuel argument
is `max_auto_iterations - auto_iterations + 1`, enough for the loop to
always exit through its own conditions. -/
def auto_loop : Nat → Session → Option String → List NetResult → LoopOut
  | 0, s, _, env => ⟨s, env, [], 0⟩
  | fuel + 1, s, response_text, env =>
    if s.auto_mode = true ∧ s.auto_iterations < s.max_auto_iterations ∧ response_text ≠ none then
      match generate_auto_response s env with
      | (s₁, none, env₁) => ⟨s₁, env₁, [], 0⟩
      | (s₁, some t, env₁) =>
        if t = "" then ⟨s₁, env₁, [], 0⟩
        else
          let s₂ := append_auto_turn s₁ t
          match process_chat_round s₂ env₁ with
          | ⟨s₃, none, env₂, snaps⟩ => ⟨s₃, env₂, s₂.messages :: snaps, 1⟩
          | ⟨s₃, some r, env₂, snaps⟩ =>
            if r = "" then ⟨s₃, env₂, s₂.messages :: snaps, 1⟩
            else
              let out := auto_loop fuel s₃ (some r) env₂
              ⟨out.session, out.env, s₂.messages :: (snaps ++ out.snaps), 1 + out.rounds⟩
    else ⟨s, env, [], 0⟩

/-- The state right after `chat` appends the human turn and resets
`auto_iterations` (src/deepseek.py 289-295). -/
def chat_start (s : Session) (user_input : String) : Session :=
  { s with
    messages := s.messages ++ [⟨"user", user_input, false⟩]
    auto_iterations := 0 }

/-- `chat` (src/deepseek.py 285-366).  When the initial validation raises,
the outer handler pops the last message if its role is `"user"` — which is
exactly the situation in which that validation raises, so the failing
branch drops the last (pre-existing) turn.  After the append no modelled
exception reaches the outer handler: the round and the loop helpers catch
their own. -/
def chat (s : Session) (user_input : String) (env : List NetResult) : LoopOut :=
  if validate_message_sequence s.messages "user" then
    let s₁ := chat_start s user_input
    match process_chat_round s₁ env with
    | ⟨s₂, none, env₁, snaps⟩ => ⟨s₂, env₁, s₁.messages :: snaps, 0⟩
    | ⟨s₂, some r, env₁, snaps⟩ =>
      if r = "" then ⟨s₂, env₁, s₁.messages :: snaps, 0⟩
      else
        let out := auto_loop (s.max_auto_iterations + 1) s₂ (some r) env₁
        ⟨out.session, out.env, s₁.messages :: (snaps ++ out.snaps), out.rounds⟩
  else ⟨{ s with messages := s.messages.dropLast }, env, [], 0⟩

/-! ### The role-alternation invariant -/

/-- No two consecutive turns share a role. -/
def alternating : List Message → Bool
  | [] => true
  | [_] => true
  | a :: b :: rest => (a.role != b.role) && alternating (b :: rest)

theorem validate_cons_cons (a b : Message) (t : List Message) (r : String) :
    validate_message_sequence (a :: b :: t) r = validate_message_sequence (b :: t) r := by
  simp [validate_message_sequence, List.getLast?_cons_cons]

theorem validate_concat (l : List Message) (m : Message) (r : String) :
    validate_message_sequence (l ++ [m]) r = (m.role != r) := by
  simp [validate_message_sequence, List.getLast?_concat]

theorem alternating_concat (msgs : List Message) (m : Message)
    (hv : validate_message_sequence msgs m.role = true)
    (ha : alternating msgs = true) : alternating (msgs ++ [m]) = true := by
  induction msgs with
  | nil => simp [alternating]
  | cons a t ih =>
    cases t with
    | nil =>
      simp [validate_message_sequence, List.getLast?] at hv
      simp [alternating, hv]
    | cons b t' =>
      rw [validate_cons_cons] at hv
      simp only [alternating, Bool.and_eq_true] at ha
      have := ih hv ha.2
      simp only [List.cons_append, alternating, Bool.and_eq_true]
      exact ⟨ha.1, by simpa [List.cons_append] using this⟩

theorem alternating_dropLast (msgs : List Message)
    (ha : alternating msgs = true) : alternating msgs.dropLast = true := by
  induction msgs with
  | nil => simp [alternating]
  | cons a t ih =>
    cases t with
    | nil => simp [alternating]
    | cons b t' =>
      simp only [alternating, Bool.and_eq_true] at ha
      have ih' := ih ha.2
      rw [List.dropLast_cons₂]
      cases t' with
      | nil => simp [alternating]
      | cons c t'' =>
        rw [List.dropLast_cons₂] at ih' ⊢
        simp only [alternating, Bool.and_eq_true]
        exact ⟨ha.1, ih'⟩

/-! ### Helper lemmas about the round, the generator and the loop -/

theorem gen_fst (s : Session) (env : List NetResult) :
    (generate_auto_response s env).1 = s := by
  unfold generate_auto_response
  split
  · cases env with
    | nil => rfl
    | cons r rest => cases r <;> rfl
  · rfl

theorem gen_some (s : Session) (env : List NetResult) (s' : Session) (t : String)
    (env' : List NetResult)
    (h : generate_auto_response s env = (s', some t, env')) :
    s' = s ∧ validate_message_sequence s.messages "user" = true := by
  unfold generate_auto_response at h
  cases hv : validate_message_sequence s.messages "user" with
  | false => simp [hv] at h
  | true =>
    simp only [hv, if_true] at h
    cases env with
    | nil => simp at h
    | cons r rest =>
      cases r with
      | raise => simp at h
      | ok u =>
        simp only [Prod.mk.injEq] at h
        exact ⟨h.1.symm, rfl⟩

theorem round_alternating (s : Session) (env : List NetResult)
    (h : alternating s.messages = true) :
    alternating (process_chat_round s env).session.messages = true ∧
    ∀ l ∈ (process_chat_round s env).snaps, alternating l = true := by
  unfold process_chat_round
  cases hv : validate_message_sequence s.messages "assistant" with
  | false => simpa using h
  | true =>
    simp only [hv, if_true]
    cases env with
    | nil => simpa using h
    | cons r rest =>
      cases r with
      | raise => simpa using h
      | ok t =>
        by_cases ht : t = ""
        · simp [ht, h]
        · have hc : alternating (s.messages ++ [(⟨"assistant", t, false⟩ : Message)]) = true :=
            alternating_concat s.messages ⟨"assistant", t, false⟩ hv h
          simp [ht, hc]

theorem round_fields (s : Session) (env : List NetResult) :
    (process_chat_round s env).session.auto_mode = s.auto_mode ∧
    (process_chat_round s env).session.auto_iterations = s.auto_iterations ∧
    (process_chat_round s env).session.max_auto_iterations = s.max_auto_iterations := by
  unfold process_chat_round
  split
  · cases env with
    | nil => exact ⟨rfl, rfl, rfl⟩
    | cons r rest =>
      cases r with
      | raise => exact ⟨rfl, rfl, rfl⟩
      | ok t =>
        by_cases ht : t = "" <;> simp [ht]
  · exact ⟨rfl, rfl, rfl⟩

theorem round_extend (s : Session) (env : List NetResult) :
    ∃ tail, (process_chat_round s env).session.messages = s.messages ++ tail := by
  unfold process_chat_round
  split
  · cases env with
    | nil => exact ⟨[], by simp⟩
    | cons r rest =>
      cases r with
      | raise => exact ⟨[], by simp⟩
      | ok t =>
        by_cases ht : t = ""
        · exact ⟨[], by simp [ht]⟩
        · exact ⟨[⟨"assistant", t, false⟩], by simp [ht]⟩
  · exact ⟨[], by simp⟩

theorem loop_alternating (fuel : Nat) (s : Session) (rt : Option String)
    (env : List NetResult) (h : alternating s.messages = true) :
    alternating (auto_loop fuel s rt env).session.messages = true ∧
    ∀ l ∈ (auto_loop fuel s rt env).snaps, alternating l = true := by
  induction fuel generalizing s rt env with
  | zero => simpa [auto_loop] using h
  | succ fuel ih =>
    rw [auto_loop]
    split
    · rcases hgen : generate_auto_response s env with ⟨s₁, ot, env₁⟩
      have hs₁ : s₁ = s := by
        have := gen_fst s env
        rw [hgen] at this
        exact this
      cases ot with
      | none => simpa [hgen, hs₁] using h
      | some t =>
        have hv : validate_message_sequence s.messages "user" = true :=
          (gen_some s env s₁ t env₁ hgen).2
        dsimp only
        by_cases ht : t = ""
        · simpa [ht, hs₁] using h
        · simp only [ht, if_false]
          have h₂ : alternating (append_auto_turn s₁ t).messages = true := by
            have : (append_auto_turn s₁ t).messages
                = s.messages ++ [(⟨"user", t, true⟩ : Message)] := by
              simp [append_auto_turn, hs₁]
            rw [this]
            exact alternating_concat s.messages ⟨"user", t, true⟩ hv h
          rcases hr : process_chat_round (append_auto_turn s₁ t) env₁ with ⟨s₃, or, env₂, snaps⟩
          have hround := round_alternating (append_auto_turn s₁ t) env₁ h₂
          rw [hr] at hround
          cases or with
          | none =>
            dsimp only
            refine ⟨hround.1, ?_⟩
            intro l hl
            rcases List.mem_cons.mp hl with hl | hl
            · rw [hl]; exact h₂
            · exact hround.2 l hl
          | some r =>
            dsimp only
            by_cases hrr : r = ""
            · simp only [hrr, if_true]
              refine ⟨hround.1, ?_⟩
              intro l hl
              rcases List.mem_cons.mp hl with hl | hl
              · rw [hl]; exact h₂
              · exact hround.2 l hl
            · simp only [hrr, if_false]
              have hihall := ih s₃ (some r) env₂ hround.1
              refine ⟨hihall.1, ?_⟩
              intro l hl
              rcases List.mem_cons.mp hl with hl | hl
              · rw [hl]; exact h₂
              · rcases List.mem_append.mp hl with hl | hl
                · exact hround.2 l hl
                · exact hihall.2 l hl
    · simpa using h

theorem loop_rounds (fuel : Nat) (s : Session) (rt : Option String)
    (env : List NetResult) :
    (auto_loop fuel s rt env).rounds ≤ s.max_auto_iterations - s.auto_iterations := by
  induction fuel generalizing s rt env with
  | zero => simp [auto_loop]
  | succ fuel ih =>
    rw [auto_loop]
    split
    case isTrue hcond =>
      have hlt : s.auto_iterations < s.max_auto_iterations := hcond.2.1
      rcases hgen : generate_auto_response s env with ⟨s₁, ot, env₁⟩
      have hs₁ : s₁ = s := by
        have := gen_fst s env
        rw [hgen] at this
        exact this
      cases ot with
      | none => simp
      | some t =>
        dsimp only
        by_cases ht : t = ""
        · simp [ht]
        · simp only [ht, if_false]
          rcases hr : process_chat_round (append_auto_turn s₁ t) env₁ with ⟨s₃, or, env₂, snaps⟩
          have hfields := round_fields (append_auto_turn s₁ t) env₁
          rw [hr] at hfields
          have hiter : s₃.auto_iterations = s.auto_iterations + 1 := by
            rw [hfields.2.1]
            simp [append_auto_turn, hs₁]
          have hmax : s₃.max_auto_iterations = s.max_auto_iterations := by
            rw [hfields.2.2]
            simp [append_auto_turn, hs₁]
          cases or with
          | none => simpa using Nat.le_sub_of_add_le (by omega)
          | some r =>
            dsimp only
            by_cases hrr : r = ""
            · simpa [hrr] using Nat.le_sub_of_add_le (by omega)
            · simp only [hrr, if_false]
              have := ih s₃ (some r) env₂
              rw [hiter, hmax] at this
              omega
    · simp

theorem loop_extend (fuel : Nat) (s : Session) (rt : Option String)
    (env : List NetResult) :
    ∃ tail, (auto_loop fuel s rt env).session.messages = s.messages ++ tail := by
  induction fuel generalizing s rt env with
  | zero => exact ⟨[], by simp [auto_loop]⟩
  | succ fuel ih =>
    rw [auto_loop]
    split
    · rcases hgen : generate_auto_response s env with ⟨s₁, ot, env₁⟩
      have hs₁ : s₁ = s := by
        have := gen_fst s env
        rw [hgen] at this
        exact this
      cases ot with
      | none => exact ⟨[], by simp [hs₁]⟩
      | some t =>
        dsimp only
        by_cases ht : t = ""
        · exact ⟨[], by simp [ht, hs₁]⟩
        · simp only [ht, if_false]
          rcases hr : process_chat_round (append_auto_turn s₁ t) env₁ with ⟨s₃, or, env₂, snaps⟩
          obtain ⟨tail₁, htail₁⟩ := round_extend (append_auto_turn s₁ t) env₁
          rw [hr] at htail₁
          have hmsg : s₃.messages = s.messages ++ ([⟨"user", t, true⟩] ++ tail₁) := by
            rw [htail₁]
            simp [append_auto_turn, hs₁]
          cases or with
          | none => exact ⟨_, hmsg⟩
          | some r =>
            dsimp only
            by_cases hrr : r = ""
            · exact ⟨_, by simpa [hrr] using hmsg⟩
            · simp only [hrr, if_false]
              obtain ⟨tail₂, htail₂⟩ := ih s₃ (some r) env₂
              refine ⟨[⟨"user", t, true⟩] ++ tail₁ ++ tail₂, ?_⟩
              rw [htail₂, hmsg]
              simp
    · exact ⟨[], by simp⟩

theorem chat_extend (s : Session) (u : String) (env : List NetResult)
    (hv : validate_message_sequence s.messages "user" = true) :
    ∃ tail, (chat s u env).session.messages = s.messages ++ tail := by
  unfold chat
  simp only [hv, if_true]
  rcases hr : process_chat_round (chat_start s u) env with ⟨s₂, or, env₁, snaps⟩
  obtain ⟨t₁, ht₁⟩ := round_extend (chat_start s u) env
  rw [hr] at ht₁
  have hstart : (chat_start s u).messages = s.messages ++ [⟨"user", u, false⟩] := rfl
  have hmsg : s₂.messages = s.messages ++ ([⟨"user", u, false⟩] ++ t₁) := by
    rw [ht₁, hstart]
    simp
  cases or with
  | none => exact ⟨_, hmsg⟩
  | some r =>
    dsimp only
    by_cases hrr : r = ""
    · exact ⟨_, by simpa [hrr] using hmsg⟩
    · simp only [hrr, if_false]
      obtain ⟨t₂, ht₂⟩ := loop_extend (s.max_auto_iterations + 1) s₂ (some r) env₁
      refine ⟨[⟨"user", u, false⟩] ++ t₁ ++ t₂, ?_⟩
      rw [ht₂, hmsg]
      simp

/-! ### The claims -/

/-- C3, the specification's claim, refuted at a concrete input.  The claim says
that with `max_auto_retries = 2` an exception raised while generating the
auto user turn is caught per-iteration with a retry counter, and the loop
stops only after three consecutive failing iterations.  In the source, that
exception is caught inside `_generate_auto_response` itself (src/deepseek.py
277-283), which returns `None`; `chat` then prints a warning and `break`s
after the single failure (src/deepseek.py 309-316), so its
`retry_count`/`max_auto_retries` branch never runs for such errors.  Run on
an oracle whose initial round succeeds and whose every later request
raises: the claim predicts three failing generation attempts (the whole
oracle consumed, leaving `[]`) before stopping; instead only one is
consumed and the loop runs zero assistant rounds. -/
theorem c3_retry_counterexample :
    init_session.max_auto_retries = 2 ∧
    (chat init_session "hi"
        [NetResult.ok "A", NetResult.raise, NetResult.raise, NetResult.raise]).env
      = [NetResult.raise, NetResult.raise] ∧
    (chat init_session "hi"
        [NetResult.ok "A", NetResult.raise, NetResult.raise, NetResult.raise]).rounds = 0 ∧
    ¬((chat init_session "hi"
        [NetResult.ok "A", NetResult.raise, NetResult.raise, NetResult.raise]).env
      = []) := by
  decide

/-- C3 as amended: an exception raised while generating the auto user turn
or while running the assistant round is caught inside
`_generate_auto_response` / `_process_chat_round`, which return `None`, and
the auto loop then stops immediately after that single failed attempt — no
retry is made and the loop-level retry counter stays untouched whatever
`max_auto_retries` holds (the session `s` is arbitrary, its retry budget
included).  First conjunct: a failing generation consumes exactly one
oracle entry and returns the session exactly as it was, so turns appended
by earlier successful iterations are not reverted.  Second conjunct: after
a successful generation, a failing assistant round stops the loop at once,
keeping the freshly appended synthetic user turn and consuming no further
oracle entries. -/
theorem c3_failure_stops_loop_without_retry (s : Session) (r t : String)
    (rest : List NetResult) (fuel : Nat)
    (hm : s.auto_mode = true)
    (hi : s.auto_iterations < s.max_auto_iterations)
    (hv : validate_message_sequence s.messages "user" = true)
    (hst : strip t ≠ "") :
    (auto_loop (fuel + 1) s (some r) (NetResult.raise :: rest) = ⟨s, rest, [], 0⟩) ∧
    (auto_loop (fuel + 1) s (some r) (NetResult.ok t :: NetResult.raise :: rest)
      = ⟨append_auto_turn s (strip t), rest, [(append_auto_turn s (strip t)).messages], 1⟩) := by
  constructor
  · rw [auto_loop]
    rw [if_pos ⟨hm, hi, by simp⟩]
    unfold generate_auto_response
    simp [hv]
  · rw [auto_loop]
    rw [if_pos ⟨hm, hi, by simp⟩]
    unfold generate_auto_response
    simp only [hv, if_true]
    simp only [hst, if_false]
    unfold process_chat_round
    have hval : validate_message_sequence (append_auto_turn s (strip t)).messages "assistant" = true := by
      have hmsg : (append_auto_turn s (strip t)).messages = s.messages ++ [⟨"user", strip t, true⟩] := rfl
      rw [hmsg, validate_concat]
      rfl
    simp [hval]

/-- Witness for `c3_failure_stops_loop_without_retry` at a concrete
session, for both failure points. -/
theorem c3_failure_stops_loop_without_retry_witness :
    (auto_loop 1 { init_session with messages := [⟨"user", "h", false⟩, ⟨"assistant", "a", false⟩] }
        (some "a") [NetResult.raise]
      = ⟨{ init_session with messages := [⟨"user", "h", false⟩, ⟨"assistant", "a", false⟩] },
         [], [], 0⟩) ∧
    (auto_loop 1 { init_session with messages := [⟨"user", "h", false⟩, ⟨"assistant", "a", false⟩] }
        (some "a") [NetResult.ok "q", NetResult.raise]
      = ⟨append_auto_turn { init_session with messages := [⟨"user", "h", false⟩, ⟨"assistant", "a", false⟩] } (strip "q"),
         [],
         [(append_auto_turn { init_session with messages := [⟨"user", "h", false⟩, ⟨"assistant", "a", false⟩] } (strip "q")).messages],
         1⟩) :=
  c3_failure_stops_loop_without_retry
    { init_session with messages := [⟨"user", "h", false⟩, ⟨"assistant", "a", false⟩] }
    "a" "q" [] 0 (by decide) (by decide) (by decide) (by decide)

/-- C4, the specification's claim, refuted at a concrete input.  The claim says an
aborting `chat` call rolls back only the turn that very call partially
appended and never removes a turn that existed before the call.  The
handler (src/deepseek.py 363-366) instead pops the last message whenever
its role is `"user"`.  Reachable scenario: a first `chat` call whose
assistant round fails returns normally, leaving a dangling human turn; a
second call then aborts in validation — before appending anything — and
pops that pre-existing turn, so the session is not left in its pre-call
state. -/
theorem c4_rollback_counterexample :
    ((chat init_session "a" [NetResult.raise]).session.messages
      = [⟨"user", "a", false⟩]) ∧
    ((chat (chat init_session "a" [NetResult.raise]).session "b" []).session.messages
      = []) ∧
    ¬((chat (chat init_session "a" [NetResult.raise]).session "b" []).session.messages
      = (chat init_session "a" [NetResult.raise]).session.messages) := by
  decide

/-- C4 as amended: the only aborting path of `chat` is the initial
role-validation failure, which happens exactly when the history already
ends with a user turn; the handler then pops that last (pre-existing) turn
and the call appends nothing and consumes no oracle.  On the non-aborting
path no turn that existed before the call is ever removed: the old message
list stays a prefix of the new one. -/
theorem c4_abort_pops_last_user_turn (s : Session) (u : String) (env : List NetResult) :
    (validate_message_sequence s.messages "user" = false →
      chat s u env = ⟨{ s with messages := s.messages.dropLast }, env, [], 0⟩) ∧
    (validate_message_sequence s.messages "user" = true →
      List.take s.messages.length (chat s u env).session.messages = s.messages) := by
  constructor
  · intro h
    unfold chat
    simp [h]
  · intro h
    obtain ⟨tail, ht⟩ := chat_extend s u env h
    rw [ht]
    exact List.take_left s.messages tail

/-- Witness for `c4_abort_pops_last_user_turn`, both branches at concrete
inputs. -/
theorem c4_abort_pops_last_user_turn_witness :
    (chat { init_session with messages := [⟨"user", "a", false⟩] } "b" []
      = ⟨{ init_session with messages := [] }, [], [], 0⟩) ∧
    (List.take 0 (chat init_session "a" [] ).session.messages = []) := by
  constructor
  · exact (c4_abort_pops_last_user_turn
      { init_session with messages := [⟨"user", "a", false⟩] } "b" []).1 (by decide)
  · exact (c4_abort_pops_last_user_turn init_session "a" []).2 (by decide)

/-- C5, the specification's claim, refuted at a concrete input.  The claim says a
request payload contains only the role and content of each message and
never the internal `is_auto_generated` flag.  The source sends
`self.messages` (and the auto request history) verbatim — the stored
dictionaries carry all three keys (src/deepseek.py 372-376, 222-226), so
two histories that agree on every role and content but differ on one flag
produce different payloads. -/
theorem c5_payload_counterexample :
    List.map wire [(⟨"user", "hi", false⟩ : Message)]
      = List.map wire [(⟨"user", "hi", true⟩ : Message)] ∧
    round_payload [⟨"user", "hi", false⟩] ≠ round_payload [⟨"user", "hi", true⟩] := by
  decide

/-- C5 as amended: the payload embeds each stored message whole — role,
content and `is_auto_generated` — so the internal flag is sent to the
remote endpoint; the payload determines the full message list, flags
included, and the auto request history is likewise embedded as built. -/
theorem c5_payload_carries_flag (msgs msgs' : List Message) (m : Message) :
    ((round_payload msgs = round_payload msgs') ↔ msgs = msgs') ∧
    (m ∈ msgs → m ∈ (round_payload msgs).messages) ∧
    ((auto_payload msgs).messages = auto_request_messages msgs) := by
  refine ⟨⟨fun h => congrArg Payload.messages h, fun h => by rw [h]⟩, fun h => h, rfl⟩

/-- Witness for `c5_payload_carries_flag`: the flagged message is in its own
payload. -/
theorem c5_payload_carries_flag_witness :
    (⟨"user", "hi", true⟩ : Message) ∈ (round_payload [⟨"user", "hi", true⟩]).messages :=
  (c5_payload_carries_flag [⟨"user", "hi", true⟩] [] ⟨"user", "hi", true⟩).2.1 (by decide)

/-- C8: every call to `toggle_auto_mode` flips `auto_mode` and resets
`auto_iterations` to 0; a false-to-true flip additionally removes every
auto-generated turn, so immediately afterwards no turn has
`is_auto_generated = true`; a true-to-false flip leaves the message list
unchanged (src/deepseek.py 122-133). -/
theorem c8_toggle_auto_mode_spec (s : Session) :
    (toggle_auto_mode s).auto_mode = !s.auto_mode ∧
    (toggle_auto_mode s).auto_iterations = 0 ∧
    (s.auto_mode = false →
      ((toggle_auto_mode s).messages.all (fun m => !m.is_auto_generated)) = true) ∧
    (s.auto_mode = true → (toggle_auto_mode s).messages = s.messages) := by
  unfold toggle_auto_mode
  cases hm : s.auto_mode with
  | false =>
    refine ⟨by simp, by simp, fun _ => ?_, fun h => by simp at h⟩
    simp only [Bool.not_false, if_true, List.all_eq_true, clean_auto_messages]
    intro m hmem
    have := List.of_mem_filter hmem
    simpa using this
  | true =>
    refine ⟨by simp, by simp, fun h => by simp at h, fun _ => by simp⟩

/-- Witness for `c8_toggle_auto_mode_spec` on a session with auto mode off
and one synthetic turn in the history. -/
theorem c8_toggle_auto_mode_spec_witness :
    ((toggle_auto_mode { init_session with auto_mode := false, messages := [⟨"user", "h", false⟩, ⟨"assistant", "a", false⟩, ⟨"user", "q", true⟩] }).auto_mode = true) ∧
    ((toggle_auto_mode { init_session with auto_mode := false, messages := [⟨"user", "h", false⟩, ⟨"assistant", "a", false⟩, ⟨"user", "q", true⟩] }).auto_iterations = 0) ∧
    (((toggle_auto_mode { init_session with auto_mode := false, messages := [⟨"user", "h", false⟩, ⟨"assistant", "a", false⟩, ⟨"user", "q", true⟩] }).messages.all (fun m => !m.is_auto_generated)) = true) := by
  refine ⟨?_, ?_, ?_⟩
  · exact (c8_toggle_auto_mode_spec { init_session with auto_mode := false, messages := [⟨"user", "h", false⟩, ⟨"assistant", "a", false⟩, ⟨"user", "q", true⟩] }).1
  · exact (c8_toggle_auto_mode_spec { init_session with auto_mode := false, messages := [⟨"user", "h", false⟩, ⟨"assistant", "a", false⟩, ⟨"user", "q", true⟩] }).2.1
  · exact (c8_toggle_auto_mode_spec { init_session with auto_mode := false, messages := [⟨"user", "h", false⟩, ⟨"assistant", "a", false⟩, ⟨"user", "q", true⟩] }).2.2.1 rfl

/-- C10: `load_conversation` with a filename whose path does not exist
returns without raising and leaves the whole session — messages,
`auto_mode`, `auto_iterations`, `show_reasoning` — unchanged
(src/deepseek.py 80-95); the filesystem is the oracle `fs`. -/
theorem c10_load_missing_file (s : Session) (fs : String → Option SavedState)
    (filename : String) (h : fs filename = none) :
    load_conversation s fs filename = s := by
  unfold load_conversation
  rw [h]

/-- Witness for `c10_load_missing_file` on an empty filesystem. -/
theorem c10_load_missing_file_witness :
    load_conversation init_session (fun _ => none) "chat_session_x.pkl" = init_session :=
  c10_load_missing_file init_session (fun _ => none) "chat_session_x.pkl" rfl

/-- C1: starting from a history with no two consecutive equal roles, a
`chat` call — its initial completion round and every auto-loop iteration
included — preserves the invariant at every successful append: every ghost
snapshot taken right after an append, and the final message list, have
strictly alternating roles.  Every append in the source is guarded by a
`_validate_message_sequence` check on the same role with no intervening
append, which is what the proof threads through the round, the generator
and the loop. -/
theorem c1_role_alternation_invariant (s : Session) (u : String) (env : List NetResult)
    (h : alternating s.messages = true) :
    alternating (chat s u env).session.messages = true ∧
    ((chat s u env).snaps.all alternating) = true := by
  unfold chat
  by_cases hv : validate_message_sequence s.messages "user" = true
  · simp only [hv, if_true]
    have h₁ : alternating (chat_start s u).messages = true := by
      have hs : (chat_start s u).messages = s.messages ++ [⟨"user", u, false⟩] := rfl
      rw [hs]
      exact alternating_concat s.messages ⟨"user", u, false⟩ hv h
    rcases hr : process_chat_round (chat_start s u) env with ⟨s₂, or, env₁, snaps⟩
    have hround := round_alternating (chat_start s u) env h₁
    rw [hr] at hround
    cases or with
    | none =>
      dsimp only
      refine ⟨hround.1, ?_⟩
      rw [List.all_eq_true]
      intro l hl
      rcases List.mem_cons.mp hl with hl | hl
      · rw [hl]; exact h₁
      · exact hround.2 l hl
    | some r =>
      dsimp only
      by_cases hrr : r = ""
      · simp only [hrr, if_true]
        refine ⟨hround.1, ?_⟩
        rw [List.all_eq_true]
        intro l hl
        rcases List.mem_cons.mp hl with hl | hl
        · rw [hl]; exact h₁
        · exact hround.2 l hl
      · simp only [hrr, if_false]
        have hloop := loop_alternating (s.max_auto_iterations + 1) s₂ (some r) env₁ hround.1
        refine ⟨hloop.1, ?_⟩
        rw [List.all_eq_true]
        intro l hl
        rcases List.mem_cons.mp hl with hl | hl
        · rw [hl]; exact h₁
        · rcases List.mem_append.mp hl with hl | hl
          · exact hround.2 l hl
          · exact hloop.2 l hl
  · simp only [hv]
    have : validate_message_sequence s.messages "user" = false := by
      cases hvv : validate_message_sequence s.messages "user" with
      | false => rfl
      | true => exact absurd hvv hv
    simp only [this, Bool.false_eq_true, if_false]
    exact ⟨alternating_dropLast s.messages h, by simp⟩

/-- Witness for `c1_role_alternation_invariant`: a full run with one human
turn and a complete auto loop, starting from the empty history. -/
theorem c1_role_alternation_invariant_witness :
    alternating (chat init_session "hi" [NetResult.ok "A", NetResult.ok "q1", NetResult.ok "B", NetResult.ok "q2", NetResult.ok "C", NetResult.ok "q3", NetResult.ok "D"]).session.messages = true ∧
    ((chat init_session "hi" [NetResult.ok "A", NetResult.ok "q1", NetResult.ok "B", NetResult.ok "q2", NetResult.ok "C", NetResult.ok "q3", NetResult.ok "D"]).snaps.all alternating) = true :=
  c1_role_alternation_invariant init_session "hi"
    [NetResult.ok "A", NetResult.ok "q1", NetResult.ok "B", NetResult.ok "q2", NetResult.ok "C", NetResult.ok "q3", NetResult.ok "D"]
    (by decide)

/-- C2: a single human-originated turn passed to `chat` triggers at most
`max_auto_iterations` automatic assistant rounds (the ghost `rounds` count
of the auto loop), never `max_auto_iterations + 1`, because the loop guard
compares `auto_iterations < max_auto_iterations` strictly; and
`auto_iterations` is reset to 0 when the human turn is appended
(src/deepseek.py 289-304). -/
theorem c2_auto_round_bound (s : Session) (u : String) (env : List NetResult) :
    (chat s u env).rounds ≤ s.max_auto_iterations ∧
    (chat_start s u).auto_iterations = 0 := by
  constructor
  · unfold chat
    by_cases hv : validate_message_sequence s.messages "user" = true
    · simp only [hv, if_true]
      rcases hr : process_chat_round (chat_start s u) env with ⟨s₂, or, env₁, snaps⟩
      have hfields := round_fields (chat_start s u) env
      rw [hr] at hfields
      cases or with
      | none => simp
      | some r =>
        dsimp only
        by_cases hrr : r = ""
        · simp [hrr]
        · simp only [hrr, if_false]
          have hb := loop_rounds (s.max_auto_iterations + 1) s₂ (some r) env₁
          have hiter : s₂.auto_iterations = 0 := by
            have := hfields.2.1
            simpa [chat_start] using this
          have hmax : s₂.max_auto_iterations = s.max_auto_iterations := by
            have := hfields.2.2
            simpa [chat_start] using this
          rw [hiter, hmax] at hb
          simpa using hb
    · have : validate_message_sequence s.messages "user" = false := by
        cases hvv : validate_message_sequence s.messages "user" with
        | false => rfl
        | true => exact absurd hvv hv
      simp [this]
  · rfl

/-- C9: `_generate_auto_response` leaves the session's real message list
unchanged (the returned session is the input session); the request history
it sends is the session history with every turn whose content exactly
equals the fixed auto-instruction text filtered out and one fresh
instruction turn appended at the end (`role = "user"`,
`is_auto_generated = true`); nothing else enters the request; the
instruction never survives outside the last request slot; and when the loop
accepts a generated reply it appends to the real history exactly one
synthetic user turn carrying the reply text with `is_auto_generated = true`
(src/deepseek.py 204-220, 325-331). -/
theorem c9_auto_request_frame (s : Session) (env : List NetResult)
    (msgs : List Message) (m : Message) (t : String) :
    ((generate_auto_response s env).1 = s) ∧
    ((auto_payload msgs).messages.getLast? = some instruction_turn) ∧
    (m ∈ msgs → m.content ≠ auto_instruction → m ∈ (auto_payload msgs).messages) ∧
    (m ∈ (auto_payload msgs).messages → m ∈ msgs ∨ m = instruction_turn) ∧
    (m ∈ msgs → m.content = auto_instruction → m ∉ (auto_payload msgs).messages.dropLast) ∧
    ((append_auto_turn s t).messages = s.messages ++ [⟨"user", t, true⟩]) := by
  refine ⟨gen_fst s env, ?_, ?_, ?_, ?_, rfl⟩
  · exact List.getLast?_concat _
  · intro hm hne
    exact List.mem_append_left _ (List.mem_filter.mpr ⟨hm, bne_iff_ne.mpr hne⟩)
  · intro hm
    rcases List.mem_append.mp hm with hm | hm
    · exact Or.inl (List.mem_of_mem_filter hm)
    · exact Or.inr (List.mem_singleton.mp hm)
  · intro _ heq hmem
    rw [show (auto_payload msgs).messages.dropLast = msgs.filter (fun m => m.content != auto_instruction) from List.dropLast_concat ..] at hmem
    have := List.of_mem_filter hmem
    rw [heq] at this
    simp at this

set_option maxRecDepth 8192 in
/-- Witness for `c9_auto_request_frame` on a two-turn history, an
instruction-echo turn and a concrete generation. -/
theorem c9_auto_request_frame_witness :
    ((generate_auto_response init_session [NetResult.ok " q "]).1 = init_session) ∧
    ((auto_payload [⟨"user", "h", false⟩]).messages.getLast? = some instruction_turn) ∧
    ((⟨"user", "h", false⟩ : Message) ∈ (auto_payload [⟨"user", "h", false⟩]).messages) ∧
    ((⟨"user", auto_instruction, true⟩ : Message) ∉ (auto_payload [⟨"user", auto_instruction, true⟩]).messages.dropLast) ∧
    ((append_auto_turn init_session "q").messages = init_session.messages ++ [⟨"user", "q", true⟩]) := by
  refine ⟨?_, ?_, ?_, ?_, ?_⟩
  · exact (c9_auto_request_frame init_session [NetResult.ok " q "] [] instruction_turn "q").1
  · exact (c9_auto_request_frame init_session [] [⟨"user", "h", false⟩] instruction_turn "q").2.1
  · exact (c9_auto_request_frame init_session [] [⟨"user", "h", false⟩] ⟨"user", "h", false⟩ "q").2.2.1 (by decide) (by decide)
  · exact (c9_auto_request_frame init_session [] [⟨"user", auto_instruction, true⟩] ⟨"user", auto_instruction, true⟩ "q").2.2.2.2.1 (by decide) rfl
  · exact (c9_auto_request_frame init_session [] [] instruction_turn "q").2.2.2.2.2

/-- C6: in the decoder, a data fragment is appended to the accumulation
buffer and, whenever the grown buffer does not both start with `{` and end
with `}`, no parse is attempted — the step leaves the event output alone
and carries the grown buffer to the next line (first conjunct, for every
buffer, line and tail of the stream); consequently a JSON object split
across two consecutive `data:` lines, the first not closing with `}`, is
recombined and yields exactly one event (second conjunct, the concrete
split frame followed by `[DONE]`). -/
theorem c6_buffer_recombination :
    (∀ (buffer line dc : String) (rest : List String),
      dc = strip (string_drop (strip line) 5) →
      starts_with (strip line) "data:" = true →
      dc ≠ "[DONE]" → dc ≠ "" →
      (starts_with (buffer ++ dc) "\x7b" && ends_with (buffer ++ dc) "\x7d") = false →
      stream_lines buffer (line :: rest) = stream_lines (buffer ++ dc) rest) ∧
    (stream_lines "" ["data: \x7b\"choices\":[\x7b\"delta\":\x7b\"content\":\"Hi\"", "data: \x7d\x7d]\x7d", "data: [DONE]"]
      = ([("content", JValue.jstr "Hi")], none)) := by
  constructor
  · intro buffer line dc rest hdc hstart hdone hempty hshape
    subst hdc
    conv_lhs => rw [stream_lines]
    simp only [hstart, if_true, hdone, hempty, hshape, if_false, Bool.false_eq_true, ite_false,
      ite_true]
  · rfl

/-- Witness for `c6_buffer_recombination`: a lone opening fragment is
deferred with the buffer grown. -/
theorem c6_buffer_recombination_witness :
    stream_lines "" ["data: \x7b\"a\""] = stream_lines ("" ++ "\x7b\"a\"") [] :=
  c6_buffer_recombination.1 "" "data: \x7b\"a\"" "\x7b\"a\"" [] (by rfl) (by rfl)
    (by decide) (by decide) (by rfl)

/-- C7: when a complete-looking buffer (starting with `{` and ending with
`}`) fails to parse as JSON, the decoder reports the error, resets the
buffer to empty and continues scanning the remaining lines (first
conjunct); so a malformed frame never terminates the event sequence, and a
valid complete frame arriving after the malformed one still yields its
event (second conjunct, concrete). -/
theorem c7_malformed_frame_recovery :
    (∀ (buffer line dc : String) (rest : List String),
      dc = strip (string_drop (strip line) 5) →
      starts_with (strip line) "data:" = true →
      dc ≠ "[DONE]" → dc ≠ "" →
      (starts_with (buffer ++ dc) "\x7b" && ends_with (buffer ++ dc) "\x7d") = true →
      json_loads (buffer ++ dc) = none →
      stream_lines buffer (line :: rest) = stream_lines "" rest) ∧
    (stream_lines "" ["data: \x7bnot json\x7d", "data: \x7b\"choices\":[\x7b\"delta\":\x7b\"content\":\"ok\"\x7d\x7d]\x7d", "data: [DONE]"]
      = ([("content", JValue.jstr "ok")], none)) := by
  constructor
  · intro buffer line dc rest hdc hstart hdone hempty hshape hparse
    subst hdc
    conv_lhs => rw [stream_lines]
    simp only [hstart, if_true, hdone, hempty, hshape, hparse, if_false, ite_false, ite_true]
  · rfl

/-- Witness for `c7_malformed_frame_recovery`: one unparsable
complete-looking frame is dropped and scanning continues on an empty
buffer. -/
theorem c7_malformed_frame_recovery_witness :
    stream_lines "" ["data: \x7bx\x7d"] = stream_lines "" [] :=
  c7_malformed_frame_recovery.1 "" "data: \x7bx\x7d" "\x7bx\x7d" [] (by rfl) (by rfl)
    (by decide) (by decide) (by rfl) (by rfl)

end DSeek
